import Mathlib

/-!
Verification of the quick-add scheduling parser of `calendar-api`
(`server/google-calendar.js`, function `parseQuickText`, lines 442-524,
together with its helper `clampInt`).

The parser is embedded shallowly, character list by character list:

* each regular expression of the source is embedded as an explicit scanning
  function with the exact JavaScript semantics (leftmost match, greedy
  quantifiers with backtracking, `\b` word boundaries over the ASCII word
  class `[A-Za-z0-9_]` — in particular `ü` is *not* a word character);
* `Date` values are embedded as calendar fields plus minutes-since-epoch
  arithmetic via the standard civil-from-days / days-from-civil algorithms,
  which reproduces JavaScript's field rollover (`new Date(2026, 1, 31)` is
  March 3, 2026);
* the source reads the clock ambiently (`const now = new Date()` on line
  454); that ambient reading is made an explicit argument `now` of the
  embedded `parseQuickText`. Seconds and milliseconds of the reading are
  zeroed immediately by the source (`day.setSeconds(0, 0)`), and the final
  `start.setHours(hh, min, 0, 0)` overwrites every time-of-day field, so the
  embedding records year/month/day/hour/minute/second of the reading.
-/

namespace CalendarApi

/-- JavaScript regex word character (the `\w` class without the `u` flag):
`[A-Za-z0-9_]`.  `ü` is not a word character, which matters for `\b`. -/
def isWordChar (c : Char) : Bool :=
  c.isAlpha || c.isDigit || c == '_'

/-- Whitespace as used by the source's `\s`, `trim` and collapse steps
(restricted to the ASCII whitespace actually exercised by the routine). -/
def isSpaceChar (c : Char) : Bool :=
  c == ' ' || c == '\t' || c == '\n' || c == '\r'

/-- ASCII lowercasing plus the German umlauts appearing in the keyword
patterns; models `toLowerCase()` / the `i` regex flag on the characters the
parser's patterns can mention. -/
def lowerChar (c : Char) : Char :=
  if 'A' ≤ c ∧ c ≤ 'Z' then Char.ofNat (c.toNat + 32)
  else if c = 'Ü' then 'ü'
  else if c = 'Ö' then 'ö'
  else if c = 'Ä' then 'ä'
  else c

/-- A JavaScript `\b` between two positions: one side is a word character and
the other is not (string edges count as non-word). -/
def wordB (a b : Option Char) : Bool :=
  (match a with | some c => isWordChar c | none => false)
    != (match b with | some c => isWordChar c | none => false)

/-- Head of a list as an `Option`, for boundary tests after a match. -/
def nonWordHead : List Char → Bool
  | [] => true
  | c :: _ => !isWordChar c

def takeDigits : List Char → List Char
  | [] => []
  | c :: cs => if c.isDigit then c :: takeDigits cs else []

/-- `parseInt` on a short digit capture. -/
def digitsToNat (ds : List Char) : Nat :=
  ds.foldl (fun a c => a * 10 + (c.toNat - 48)) 0

/-- First success in a list of backtracking alternatives. -/
def firstSome : List α → (α → Option β) → Option β
  | [], _ => none
  | a :: as, f => (f a).orElse fun _ => firstSome as f

/-- The alternatives a greedy `\d{1,maxLen}` tries at the front of `s`,
longest first, each with the remaining input. -/
def digitAlts (maxLen : Nat) (s : List Char) : List (List Char × List Char) :=
  let ds := takeDigits s
  let k := min maxLen ds.length
  (List.range k).map fun i =>
    let n := k - i
    (ds.take n, s.drop n)

/-- Case-insensitive literal match (pattern given lowercase); returns the
actually matched input characters and the rest. -/
def matchCI : List Char → List Char → Option (List Char × List Char)
  | [], s => some ([], s)
  | _ :: _, [] => none
  | p :: ps, c :: cs =>
    if lowerChar c == p then (matchCI ps cs).map fun x => (c :: x.1, x.2)
    else none

/-- `trim` of the source (both ends). -/
def trimWs (s : List Char) : List Char :=
  ((s.dropWhile fun c => isSpaceChar c).reverse.dropWhile fun c => isSpaceChar c).reverse

def collapseWsAux (afterSpace : Bool) : List Char → List Char
  | [] => []
  | c :: cs =>
    if isSpaceChar c then
      (if afterSpace then [] else [' ']) ++ collapseWsAux true cs
    else c :: collapseWsAux false cs

/-- `replace(/\s+/g, " ")`: every maximal whitespace run becomes one space. -/
def collapseWs (s : List Char) : List Char := collapseWsAux false s

/-! ### Duration tokens (source lines 448-451)

`/(\d{1,3})\s*min\b/i` and `/(\d{1,2})\s*h\b/i`.  Neither pattern has a
leading `\b`: the match may start in the middle of a digit run, as long as at
most 3 (resp. 2) digits remain before `min` (resp. `h`). -/

/-- Attempt `/(\d{1,3})\s*min\b/i` at the front of `s`; returns the matched
substring and the numeric value of the digit capture.  Backtracking note: a
shorter digit capture always leaves a digit in front of `\s*min`, and a
shorter whitespace run leaves a whitespace character in front of `min`, so
only the maximal runs can succeed. -/
def matchMinAt (s : List Char) : Option (List Char × Nat) :=
  let ds := takeDigits s
  if ds.length = 0 ∨ 3 < ds.length then none
  else
    let s1 := s.drop ds.length
    let ws := s1.takeWhile fun c => isSpaceChar c
    let s2 := s1.drop ws.length
    match matchCI ['m', 'i', 'n'] s2 with
    | some (m, rest) =>
      if nonWordHead rest then some (ds ++ ws ++ m, digitsToNat ds) else none
    | none => none

/-- Leftmost match of `/(\d{1,3})\s*min\b/i` (the source's `durMinMatch`). -/
def firstMinTok : List Char → Option (List Char × Nat)
  | [] => none
  | c :: cs => (matchMinAt (c :: cs)).orElse fun _ => firstMinTok cs

/-- Attempt `/(\d{1,2})\s*h\b/i` at the front of `s`. -/
def matchHAt (s : List Char) : Option (List Char × Nat) :=
  let ds := takeDigits s
  if ds.length = 0 ∨ 2 < ds.length then none
  else
    let s1 := s.drop ds.length
    let ws := s1.takeWhile fun c => isSpaceChar c
    match s1.drop ws.length with
    | c :: rest =>
      if (lowerChar c == 'h') && nonWordHead rest then
        some (ds ++ ws ++ [c], digitsToNat ds)
      else none
    | [] => none

/-- Leftmost match of `/(\d{1,2})\s*h\b/i` (the source's `durHMatch`). -/
def firstHTok : List Char → Option (List Char × Nat)
  | [] => none
  | c :: cs => (matchHAt (c :: cs)).orElse fun _ => firstHTok cs

/-! ### Day keywords (source lines 462-469)

`/\bübermorgen\b/i`, `/\bmorgen\b/i`, `/\bheute\b/i`, tested against the
lowercased input. -/

/-- Attempt `\bkw\b` at the front of `s`, `prev` being the character before
the current position. -/
def kwAt (kw : List Char) (prev : Option Char) (s : List Char) : Bool :=
  match matchCI kw s with
  | some (m, rest) => wordB prev s.head? && wordB m.getLast? rest.head?
  | none => false

def kwTestAux (kw : List Char) (prev : Option Char) : List Char → Bool
  | [] => false
  | c :: cs => kwAt kw prev (c :: cs) || kwTestAux kw (some c) cs

/-- `regex.test`: does `\bkw\b` match anywhere in `s`? -/
def kwTest (kw : List Char) (s : List Char) : Bool :=
  kwTestAux kw none s

def heuteK : List Char := ['h', 'e', 'u', 't', 'e']
def morgenK : List Char := ['m', 'o', 'r', 'g', 'e', 'n']
def uebermorgenK : List Char := ['ü', 'b', 'e', 'r', 'm', 'o', 'r', 'g', 'e', 'n']

/-! ### Numeric date (source line 471)

`/\b(\d{1,2})\.(\d{1,2})(?:\.(\d{2,4}))?\b/` with full greedy backtracking on
each digit group and on the optional year group. -/

/-- Attempt the date pattern at the front of `s`; returns the captures
`(dd, mm, year?)`, the matched substring and the rest. -/
def matchDateAt (prev : Option Char) (s : List Char) :
    Option ((Nat × Nat × Option Nat) × List Char × List Char) :=
  if !wordB prev s.head? then none
  else
    firstSome (digitAlts 2 s) fun x =>
      match x.2 with
      | '.' :: r2 =>
        firstSome (digitAlts 2 r2) fun y =>
          (match y.2 with
           | '.' :: r4 =>
             firstSome (digitAlts 4 r4) fun z =>
               if (2 ≤ z.1.length) && wordB z.1.getLast? z.2.head? then
                 some ((digitsToNat x.1, digitsToNat y.1, some (digitsToNat z.1)),
                   x.1 ++ '.' :: y.1 ++ '.' :: z.1, z.2)
               else none
           | _ => none).orElse fun _ =>
            if wordB y.1.getLast? y.2.head? then
              some ((digitsToNat x.1, digitsToNat y.1, none),
                x.1 ++ '.' :: y.1, y.2)
            else none
      | _ => none

def firstDateAux (prev : Option Char) : List Char → Option (Nat × Nat × Option Nat)
  | [] => none
  | c :: cs =>
    match matchDateAt prev (c :: cs) with
    | some (caps, _, _) => some caps
    | none => firstDateAux (some c) cs

/-- Leftmost match of the numeric date pattern (the source's `dm`). -/
def firstDate (s : List Char) : Option (Nat × Nat × Option Nat) :=
  firstDateAux none s

/-! ### Time of day (source lines 486-498)

`/\b(\d{1,2})[:.](\d{2})\b/` and the bare-hour fallback
`/(?:^|\s)(\d{1,2})(?:\s|$)/`. -/

/-- Attempt `\b(\d{1,2})[:.](\d{2})\b` at the front of `s`. -/
def matchTimeAt (prev : Option Char) (s : List Char) :
    Option ((Nat × Nat) × List Char × List Char) :=
  if !wordB prev s.head? then none
  else
    firstSome (digitAlts 2 s) fun x =>
      match x.2 with
      | sep :: r2 =>
        if sep == ':' || sep == '.' then
          match r2 with
          | a :: b :: r3 =>
            if a.isDigit && b.isDigit && wordB (some b) r3.head? then
              some ((digitsToNat x.1, digitsToNat [a, b]),
                x.1 ++ sep :: [a, b], r3)
            else none
          | _ => none
        else none
      | [] => none

def firstTimeAux (prev : Option Char) : List Char → Option (Nat × Nat)
  | [] => none
  | c :: cs =>
    match matchTimeAt prev (c :: cs) with
    | some (caps, _, _) => some caps
    | none => firstTimeAux (some c) cs

/-- Leftmost match of the `HH:MM` / `HH.MM` pattern (the source's
`timeMatch`). -/
def firstTime (s : List Char) : Option (Nat × Nat) :=
  firstTimeAux none s

/-- The `(\d{1,2})(?:\s|$)` core of the bare-hour pattern: greedy digits,
then a whitespace character (consumed into the match) or the string end. -/
def hourCore (s : List Char) : Option (List Char × Nat × List Char) :=
  firstSome (digitAlts 2 s) fun x =>
    match x.2 with
    | [] => some (x.1, digitsToNat x.1, [])
    | c :: cs =>
      if isSpaceChar c then some (x.1 ++ [c], digitsToNat x.1, cs) else none

/-- Attempt `/(?:^|\s)(\d{1,2})(?:\s|$)/` at the front of `s`: at position 0
(`prev = none`) the `^` alternative is tried first, then the `\s`
alternative; elsewhere only `\s`. -/
def matchHourOnlyAt (prev : Option Char) (s : List Char) :
    Option (List Char × Nat × List Char) :=
  let viaSpace : Option (List Char × Nat × List Char) :=
    match s with
    | c :: cs =>
      if isSpaceChar c then (hourCore cs).map fun r => (c :: r.1, r.2.1, r.2.2)
      else none
    | [] => none
  match prev with
  | none => (hourCore s).orElse fun _ => viaSpace
  | some _ => viaSpace

def firstHourOnlyAux (prev : Option Char) : List Char → Option Nat
  | [] => none
  | c :: cs =>
    match matchHourOnlyAt prev (c :: cs) with
    | some (_, v, _) => some v
    | none => firstHourOnlyAux (some c) cs

/-- Leftmost match of the bare-hour pattern (the source's `hourOnlyMatch`). -/
def firstHourOnly (s : List Char) : Option Nat :=
  firstHourOnlyAux none s

/-! ### Title stripping (source lines 507-516)

Global `replace(..., "")` for the keyword, date, time and duration patterns,
then a non-global `replace(/(?:^|\s)\d{1,2}(?:\s|$)/, " ")`, then trim and
whitespace collapse.  A global replace scans the original string left to
right over non-overlapping matches; the character preceding the position
after a match is the last matched character. -/

/-- Generic global strip: `m prev s` attempts a match at the front of `s` and
returns the matched characters and the rest.  Fuel decreases every step and
every step consumes at least one character, so `s.length` fuel suffices. -/
def globalStrip (m : Option Char → List Char → Option (List Char × List Char)) :
    Nat → Option Char → List Char → List Char
  | 0, _, s => s
  | _ + 1, _, [] => []
  | fuel + 1, prev, c :: cs =>
    match m prev (c :: cs) with
    | some (matched, rest) => globalStrip m fuel matched.getLast? rest
    | none => c :: globalStrip m fuel (some c) cs

/-- One attempt of `/\b(heute|morgen|übermorgen)\b/gi` (alternatives in
source order). -/
def kwAltAt (prev : Option Char) (s : List Char) : Option (List Char × List Char) :=
  if !wordB prev s.head? then none
  else
    let tryKw : List Char → Option (List Char × List Char) := fun kw =>
      match matchCI kw s with
      | some (m, rest) =>
        if wordB m.getLast? rest.head? then some (m, rest) else none
      | none => none
    (tryKw heuteK).orElse fun _ => (tryKw morgenK).orElse fun _ => tryKw uebermorgenK

def stripKws (s : List Char) : List Char :=
  globalStrip kwAltAt (s.length + 1) none s

def dateStripAt (prev : Option Char) (s : List Char) : Option (List Char × List Char) :=
  (matchDateAt prev s).map fun r => (r.2.1, r.2.2)

/-- `replace(/\b\d{1,2}\.\d{1,2}(?:\.\d{2,4})?\b/g, "")`. -/
def stripDates (s : List Char) : List Char :=
  globalStrip dateStripAt (s.length + 1) none s

def timeStripAt (prev : Option Char) (s : List Char) : Option (List Char × List Char) :=
  (matchTimeAt prev s).map fun r => (r.2.1, r.2.2)

/-- `replace(/\b\d{1,2}[:.]\d{2}\b/g, "")`. -/
def stripTimes (s : List Char) : List Char :=
  globalStrip timeStripAt (s.length + 1) none s

/-- One attempt of `/\b\d{1,3}\s*min\b/gi`: unlike the extraction pattern of
line 448 this one carries a leading `\b`. -/
def minTokStripAt (prev : Option Char) (s : List Char) : Option (List Char × List Char) :=
  if wordB prev s.head? then (matchMinAt s).map fun r => (r.1, s.drop r.1.length)
  else none

def stripMinToks (s : List Char) : List Char :=
  globalStrip minTokStripAt (s.length + 1) none s

/-- One attempt of `/\b\d{1,2}\s*h\b/gi`. -/
def hTokStripAt (prev : Option Char) (s : List Char) : Option (List Char × List Char) :=
  if wordB prev s.head? then (matchHAt s).map fun r => (r.1, s.drop r.1.length)
  else none

def stripHToks (s : List Char) : List Char :=
  globalStrip hTokStripAt (s.length + 1) none s

/-- Non-global `replace(/(?:^|\s)\d{1,2}(?:\s|$)/, " ")`: only the first
match is replaced by one space. -/
def replaceHourOnlyAux (prev : Option Char) : List Char → List Char
  | [] => []
  | c :: cs =>
    match matchHourOnlyAt prev (c :: cs) with
    | some (_, _, rest) => ' ' :: rest
    | none => c :: replaceHourOnlyAux (some c) cs

def replaceHourOnly (s : List Char) : List Char :=
  replaceHourOnlyAux none s

/-! ### Calendar arithmetic (JavaScript `Date` field rollover) -/

/-- A local calendar date; month is the human month 1-12 once canonical. -/
structure Ymd where
  year : Int
  month : Int
  day : Int
deriving DecidableEq, Repr

/-- Days since 1970-01-01 of a civil date with month in 1..12 (the day may be
any integer; the formula is affine in it).  Standard days-from-civil
algorithm; `/` and `%` on `Int` are Euclidean, i.e. floor for the positive
divisors used here. -/
def daysFromCivil (y m d : Int) : Int :=
  let y := if m ≤ 2 then y - 1 else y
  let era := y / 400
  let yoe := y - era * 400
  let mp := if 2 < m then m - 3 else m + 9
  let doy := (153 * mp + 2) / 5 + d - 1
  let doe := yoe * 365 + yoe / 4 - yoe / 100 + doy
  era * 146097 + doe - 719468

/-- Canonical civil date of a days-since-epoch count (civil-from-days). -/
def civilFromDays (z : Int) : Ymd :=
  let z := z + 719468
  let era := z / 146097
  let doe := z - era * 146097
  let yoe := (doe - doe / 1460 + doe / 36524 - doe / 146096) / 365
  let y := yoe + era * 400
  let doy := doe - (365 * yoe + yoe / 4 - yoe / 100)
  let mp := (5 * doy + 2) / 153
  let d := doy - (153 * mp + 2) / 5 + 1
  let m := if mp < 10 then mp + 3 else mp - 9
  ⟨if m ≤ 2 then y + 1 else y, m, d⟩

/-- Days since epoch of arbitrary (possibly out-of-range) human-month fields,
normalizing the month the way JavaScript's `Date` constructor does. -/
def epochDays (y m d : Int) : Int :=
  let mi := m - 1
  daysFromCivil (y + mi / 12) (mi % 12 + 1) d

/-- The ambient clock reading (`new Date()` on line 454), in local calendar
fields.  A real `Date` always presents canonical fields. -/
structure DateTime where
  year : Int
  month : Int
  day : Int
  hour : Int
  minute : Int
  second : Int
deriving DecidableEq, Repr

/-- `day.setDate(day.getDate() + k)`: epoch-normalized day shift, keeping the
time-of-day fields. -/
def addDaysDT (dt : DateTime) (k : Int) : DateTime :=
  let c := civilFromDays (epochDays dt.year dt.month dt.day + k)
  { dt with year := c.year, month := c.month, day := c.day }

/-- `new Date(y, monthIndex, d, hh, mi, 0, 0)` including the historical
mapping of years 0..99 to 1900..1999.  The hour/minute arguments the source
passes here come from a real `Date` and are in range, so they cause no
further rollover. -/
def jsNewDate (y mIdx d hh mi : Int) : DateTime :=
  let y2 := if 0 ≤ y ∧ y ≤ 99 then y + 1900 else y
  let c := civilFromDays (epochDays y2 (mIdx + 1) d)
  ⟨c.year, c.month, c.day, hh, mi, 0⟩

/-- Accessors on a minutes-since-epoch timestamp (the embedding of a `Date`
whose seconds are zero, which holds for every `start`/`end` the parser
builds). -/
def minutesToYmd (t : Int) : Ymd := civilFromDays (t / 1440)

def minutesHour (t : Int) : Int := t % 1440 / 60

def minutesMin (t : Int) : Int := t % 60

/-! ### The parser (source lines 442-524) -/

/-- `clampInt` (lines 521-524).  Every call site passes a finite parsed
integer, so the `Number.isFinite` guard is never the taken branch. -/
def clampInt (n a b : Int) : Int := max a (min b n)

/-- Duration resolution (lines 447-451).  Note the source order: the
minute-token assignment runs first and the hour-token assignment second, so
when both tokens are present the hour token overwrites the minute token. -/
def resolveMinutes (raw : List Char) (defaultMinutes : Int) : Int :=
  let minutes0 : Int := if 0 < defaultMinutes then defaultMinutes else 60
  let minutes1 : Int :=
    match firstMinTok raw with
    | some x => clampInt (Int.ofNat x.2) 5 (12 * 60)
    | none => minutes0
  match firstHTok raw with
  | some x => clampInt (Int.ofNat x.2 * 60) 5 (12 * 60)
  | none => minutes1

/-- Day resolution (lines 458-480): keyword tests on the lowercased input in
fixed order, then the numeric date pattern on the raw input. -/
def resolveDay (raw lower : List Char) (day0 : DateTime) (nowYear : Int) : DateTime :=
  if kwTest uebermorgenK lower then addDaysDT day0 2
  else if kwTest morgenK lower then addDaysDT day0 1
  else if kwTest heuteK lower then day0
  else
    match firstDate raw with
    | some (dd, mm, oy) =>
      let yyyy : Int :=
        match oy with
        | some y => if (y : Int) < 100 then (y : Int) + 2000 else (y : Int)
        | none => nowYear
      jsNewDate yyyy ((mm : Int) - 1) (dd : Int) day0.hour day0.minute
    | none => day0

/-- Time-of-day resolution (lines 483-498). -/
def resolveTime (raw : List Char) : Int × Int :=
  match firstTime raw with
  | some x => (clampInt (Int.ofNat x.1) 0 23, clampInt (Int.ofNat x.2) 0 59)
  | none =>
    match firstHourOnly raw with
    | some v => (clampInt (Int.ofNat v) 0 23, 0)
    | none => (9, 0)

/-- Title residual (lines 507-516). -/
def resolveTitle (raw : List Char) : String :=
  let t1 := trimWs (stripKws raw)
  let t2 := trimWs (stripDates t1)
  let t3 := trimWs (stripTimes t2)
  let t4 := trimWs (stripMinToks t3)
  let t5 := trimWs (stripHToks t4)
  let t6 := collapseWs (trimWs (replaceHourOnly t5))
  if t6.isEmpty then "Termin" else String.mk t6

/-- The parse result: `start` and `end_` are minutes since the epoch (the
embedding of the `Date` values built on lines 500-504; their seconds are
always zero). -/
structure ScheduleResult where
  title : String
  start : Int
  end_ : Int
  minutes : Int
deriving DecidableEq, Repr

inductive QuickResult where
  | err (message : String)
  | ok (r : ScheduleResult)
deriving DecidableEq, Repr

/-- `parseQuickText(input, defaultMinutes)` (lines 442-519).  The source has
no `now` parameter: `now` here models the ambient `new Date()` reading of
line 454. -/
def parseQuickText (input : String) (defaultMinutes : Int) (now : DateTime) : QuickResult :=
  let raw := trimWs input.data
  if raw.isEmpty then QuickResult.err "text fehlt"
  else
    let minutes := resolveMinutes raw defaultMinutes
    let day0 : DateTime := { now with second := 0 }
    let lower := raw.map lowerChar
    let day := resolveDay raw lower day0 now.year
    let hm := resolveTime raw
    let startMin : Int := epochDays day.year day.month day.day * 1440 + hm.1 * 60 + hm.2
    QuickResult.ok
      { title := resolveTitle raw
        start := startMin
        end_ := startMin + minutes
        minutes := minutes }

/-! ### Statement helpers -/

/-- The payload of a successful result (dummy on error). -/
def theOk : QuickResult → ScheduleResult
  | .ok r => r
  | .err _ => { title := "", start := 0, end_ := 0, minutes := 0 }

def resMinutes : QuickResult → Option Int
  | .ok r => some r.minutes
  | .err _ => none

def resTitle : QuickResult → Option String
  | .ok r => some r.title
  | .err _ => none

def resStartYmd : QuickResult → Option Ymd
  | .ok r => some (minutesToYmd r.start)
  | .err _ => none

def resStartHour : QuickResult → Option Int
  | .ok r => some (minutesHour r.start)
  | .err _ => none

def resStartMinute : QuickResult → Option Int
  | .ok r => some (minutesMin r.start)
  | .err _ => none

/-- Does `sub` occur as a contiguous segment of `s`? -/
def segOccurs (sub : List Char) : List Char → Bool
  | [] => sub.isEmpty
  | c :: cs => sub.isPrefixOf (c :: cs) || segOccurs sub cs

/-- A fixed concrete clock reading, 2026-01-01T10:00:00 local. -/
def now0 : DateTime := ⟨2026, 1, 1, 10, 0, 0⟩

/-! ### Helper lemmas -/

theorem clampInt_le_left (n a b : Int) : a ≤ clampInt n a b :=
  le_max_left _ _

theorem clampInt_le_right (n a b : Int) (h : a ≤ b) : clampInt n a b ≤ b :=
  max_le h (min_le_left _ _)

/-- The duration resolution always yields a positive count of minutes. -/
theorem resolveMinutes_pos (raw : List Char) (d : Int) :
    0 < resolveMinutes raw d := by
  unfold resolveMinutes
  rcases hH : firstHTok raw with _ | x
  · rcases hM : firstMinTok raw with _ | y
    · simp only [hH, hM]
      split <;> omega
    · simp only [hH, hM]
      have := clampInt_le_left (Int.ofNat y.2) 5 (12 * 60)
      omega
  · simp only [hH]
    have := clampInt_le_left (Int.ofNat x.2 * 60) 5 (12 * 60)
    omega

/-- A successful parse carries exactly the resolved fields. -/
theorem parse_ok_fields (t : String) (d : Int) (n : DateTime) (r : ScheduleResult)
    (hp : parseQuickText t d n = QuickResult.ok r) :
    r.minutes = resolveMinutes (trimWs t.data) d ∧
    r.end_ = r.start + r.minutes := by
  unfold parseQuickText at hp
  by_cases he : (trimWs t.data).isEmpty = true
  · simp [he] at hp
  · simp only [he, if_false, Bool.false_eq_true, QuickResult.ok.injEq] at hp
    subst hp
    exact ⟨rfl, rfl⟩

/-- Shape of every successful parse, with the resolved components named. -/
theorem parse_start (t : String) (d : Int) (n : DateTime)
    (h : (trimWs t.data).isEmpty = false) :
    parseQuickText t d n = QuickResult.ok
      { title := resolveTitle (trimWs t.data)
        start := epochDays
            (resolveDay (trimWs t.data) ((trimWs t.data).map lowerChar)
              { n with second := 0 } n.year).year
            (resolveDay (trimWs t.data) ((trimWs t.data).map lowerChar)
              { n with second := 0 } n.year).month
            (resolveDay (trimWs t.data) ((trimWs t.data).map lowerChar)
              { n with second := 0 } n.year).day * 1440 +
          (resolveTime (trimWs t.data)).1 * 60 + (resolveTime (trimWs t.data)).2
        end_ := epochDays
            (resolveDay (trimWs t.data) ((trimWs t.data).map lowerChar)
              { n with second := 0 } n.year).year
            (resolveDay (trimWs t.data) ((trimWs t.data).map lowerChar)
              { n with second := 0 } n.year).month
            (resolveDay (trimWs t.data) ((trimWs t.data).map lowerChar)
              { n with second := 0 } n.year).day * 1440 +
          (resolveTime (trimWs t.data)).1 * 60 + (resolveTime (trimWs t.data)).2 +
          resolveMinutes (trimWs t.data) d
        minutes := resolveMinutes (trimWs t.data) d } := by
  unfold parseQuickText
  simp [h]

/-- The three keyword branches and the numeric-date branch only consume the
calendar fields of `day0` (its time-of-day fields are carried along but the
composed start overwrites them). -/
theorem resolveDay_fields (raw lower : List Char) (a b : DateTime) (yy : Int)
    (h1 : a.year = b.year) (h2 : a.month = b.month) (h3 : a.day = b.day) :
    (resolveDay raw lower a yy).year = (resolveDay raw lower b yy).year ∧
    (resolveDay raw lower a yy).month = (resolveDay raw lower b yy).month ∧
    (resolveDay raw lower a yy).day = (resolveDay raw lower b yy).day := by
  unfold resolveDay
  split
  · simp [addDaysDT, h1, h2, h3]
  · split
    · simp [addDaysDT, h1, h2, h3]
    · split
      · exact ⟨h1, h2, h3⟩
      · rcases hd : firstDate raw with _ | ⟨dd, mm, oy⟩ <;>
          simp [hd, jsNewDate, h1, h2, h3]

/-! ### Claims -/

/-- C1, counterexample: on `"termin 90min 2h"` with both duration tokens
present, the parser resolves 120 minutes (the hour token), not the 90 of the
minute token claimed by the spec: the hour-token assignment on line 451 runs
after the minute-token assignment on line 450 and overwrites it. -/
theorem c1_counterexample :
    resMinutes (parseQuickText "termin 90min 2h" 60 now0) = some 120 ∧
    resMinutes (parseQuickText "termin 90min 2h" 60 now0) ≠ some 90 := by
  decide

/-- C1, amended: whenever an hour-duration token is present, the resolved
duration is the clamped hour value — the hour token wins over any minute
token because its assignment executes last. -/
theorem c1_theorem (t : String) (d : Int) (n : DateTime) (r : ScheduleResult)
    (x : List Char × Nat)
    (hH : firstHTok (trimWs t.data) = some x)
    (hp : parseQuickText t d n = QuickResult.ok r) :
    r.minutes = clampInt (Int.ofNat x.2 * 60) 5 (12 * 60) := by
  obtain ⟨hm, -⟩ := parse_ok_fields t d n r hp
  rw [hm]
  unfold resolveMinutes
  simp only [hH]

/-- C1, witness: the amended statement applied to `"termin 90min 2h"`. -/
theorem c1_witness :
    (theOk (parseQuickText "termin 90min 2h" 60 now0)).minutes =
      clampInt (Int.ofNat 2 * 60) 5 (12 * 60) :=
  c1_theorem "termin 90min 2h" 60 now0
    (theOk (parseQuickText "termin 90min 2h" 60 now0))
    (['2', 'h'], 2) (by decide) (by decide)

/-- C2, counterexample: the source's `parseQuickText(input, defaultMinutes)`
has no `now` parameter; it reads the clock ambiently (`new Date()`, line
454).  With identical declared inputs `("x", 60)` but two different ambient
readings the results differ, so the resolved day does not depend only on
caller-supplied inputs. -/
theorem c2_counterexample :
    parseQuickText "x" 60 ⟨2026, 1, 1, 10, 0, 0⟩ ≠
      parseQuickText "x" 60 ⟨2026, 2, 2, 10, 0, 0⟩ := by
  decide

/-- C2, amended: modelling the ambient clock reading as an explicit
argument, the parser is a pure function of `(text, defaultMinutes, reading)`
and depends on the reading only through its local calendar day: readings
agreeing on year/month/day give identical results whatever their
hour/minute/second. -/
theorem c2_theorem (t : String) (d : Int) (n₁ n₂ : DateTime)
    (hy : n₁.year = n₂.year) (hm : n₁.month = n₂.month) (hd : n₁.day = n₂.day) :
    parseQuickText t d n₁ = parseQuickText t d n₂ := by
  obtain ⟨y1, mo1, d1, h1, mi1, s1⟩ := n₁
  obtain ⟨y2, mo2, d2, h2, mi2, s2⟩ := n₂
  obtain rfl : y1 = y2 := hy
  obtain rfl : mo1 = mo2 := hm
  obtain rfl : d1 = d2 := hd
  by_cases he : (trimWs t.data).isEmpty = true
  · unfold parseQuickText
    simp [he]
  · rw [parse_start t d _ (by simpa using he), parse_start t d _ (by simpa using he)]
    obtain ⟨ha, hb, hc⟩ := resolveDay_fields (trimWs t.data) ((trimWs t.data).map lowerChar)
      ⟨y1, mo1, d1, h1, mi1, 0⟩ ⟨y1, mo1, d1, h2, mi2, 0⟩ y1 rfl rfl rfl
    simp [QuickResult.ok.injEq, ScheduleResult.mk.injEq, ha, hb, hc]

/-- C2, witness: the amended statement applied at two readings of the same
calendar day 2026-01-01. -/
theorem c2_witness :
    parseQuickText "x" 60 ⟨2026, 1, 1, 10, 0, 0⟩ =
      parseQuickText "x" 60 ⟨2026, 1, 1, 23, 59, 59⟩ :=
  c2_theorem "x" 60 ⟨2026, 1, 1, 10, 0, 0⟩ ⟨2026, 1, 1, 23, 59, 59⟩ rfl rfl rfl

/-- C3, evaluation at the failing input: with the clock at 2026-01-01,
parsing `"übermorgen 13:00"` leaves the day at 2026-01-01, not the claimed
2026-01-03.  The source's `/\bübermorgen\b/i` can never match the keyword at
the string start or after a space: `ü` is not a JavaScript word character,
so no `\b` boundary exists in front of it, and `/\bmorgen\b/i` also fails
inside the word (`r` before `m` is a word character). -/
theorem c3_theorem :
    resStartYmd (parseQuickText "übermorgen 13:00" 60 ⟨2026, 1, 1, 10, 0, 0⟩) =
      some ⟨2026, 1, 1⟩ ∧
    resStartYmd (parseQuickText "übermorgen 13:00" 60 ⟨2026, 1, 1, 10, 0, 0⟩) ≠
      some ⟨2026, 1, 3⟩ := by
  decide

/-- C4, counterexample: with no duration token in `"besprechung"` and
`defaultMinutes = 1000`, the result carries 1000 minutes — the default is
used unclamped (line 447), violating the claimed [5, 720] range. -/
theorem c4_counterexample :
    resMinutes (parseQuickText "besprechung" 1000 now0) = some 1000 ∧
    ¬(theOk (parseQuickText "besprechung" 1000 now0)).minutes ≤ 720 := by
  decide

/-- C4, amended: when a minute- or hour-duration token is present the
resolved duration is clamped into [5, 720]; when neither is present the
result is the raw default — `defaultMinutes` if positive, else 60 — with no
clamping. -/
theorem c4_theorem (t : String) (d : Int) (n : DateTime) (r : ScheduleResult)
    (hp : parseQuickText t d n = QuickResult.ok r) :
    ((firstMinTok (trimWs t.data)).isSome ∨ (firstHTok (trimWs t.data)).isSome →
      5 ≤ r.minutes ∧ r.minutes ≤ 720) ∧
    (firstMinTok (trimWs t.data) = none → firstHTok (trimWs t.data) = none →
      r.minutes = if 0 < d then d else 60) := by
  obtain ⟨hm, -⟩ := parse_ok_fields t d n r hp
  rw [hm]
  constructor
  · intro htok
    unfold resolveMinutes
    rcases hH : firstHTok (trimWs t.data) with _ | x
    · rcases hM : firstMinTok (trimWs t.data) with _ | y
      · simp [hH, hM] at htok
      · simp only [hH, hM]
        have h1 := clampInt_le_left (Int.ofNat y.2) 5 (12 * 60)
        have h2 := clampInt_le_right (Int.ofNat y.2) 5 (12 * 60) (by omega)
        omega
    · simp only [hH]
      have h1 := clampInt_le_left (Int.ofNat x.2 * 60) 5 (12 * 60)
      have h2 := clampInt_le_right (Int.ofNat x.2 * 60) 5 (12 * 60) (by omega)
      omega
  · intro hM hH
    unfold resolveMinutes
    simp only [hM, hH]

/-- C4, witness: the amended statement applied to `"termin 30min"` with
default 1000 (token branch). -/
theorem c4_witness :
    5 ≤ (theOk (parseQuickText "termin 30min" 1000 now0)).minutes ∧
    (theOk (parseQuickText "termin 30min" 1000 now0)).minutes ≤ 720 :=
  ( c4_theorem "termin 30min" 1000 now0
    (theOk (parseQuickText "termin 30min" 1000 now0)) (by decide)).1
    (Or.inl (by decide))

/-- C5: the parse fails exactly on input that trims to empty, with the
single empty-input error, and succeeds on every other input. -/
theorem c5_theorem (t : String) (d : Int) (n : DateTime) :
    (parseQuickText t d n = QuickResult.err "text fehlt" ↔
      (trimWs t.data).isEmpty = true) ∧
    ((∃ r, parseQuickText t d n = QuickResult.ok r) ↔
      (trimWs t.data).isEmpty = false) := by
  unfold parseQuickText
  by_cases he : (trimWs t.data).isEmpty = true <;> simp [he]

/-- C5, witness: `"   "` trims to empty and yields the empty-input error. -/
theorem c5_witness :
    parseQuickText "   " 60 now0 = QuickResult.err "text fehlt" :=
  ( c5_theorem "   " 60 now0).1.mpr (by decide)

/-- C6: for every successful parse, `end - start` is exactly the resolved
duration in minutes, and the end is strictly after the start. -/
theorem c6_theorem (t : String) (d : Int) (n : DateTime) (r : ScheduleResult)
    (hp : parseQuickText t d n = QuickResult.ok r) :
    r.end_ - r.start = r.minutes ∧ r.start < r.end_ := by
  obtain ⟨hm, he⟩ := parse_ok_fields t d n r hp
  have hpos := resolveMinutes_pos (trimWs t.data) d
  omega

/-- C6, witness: the statement applied to `"kaffee 10:00"`. -/
theorem c6_witness :
    (theOk (parseQuickText "kaffee 10:00" 60 now0)).end_ -
        (theOk (parseQuickText "kaffee 10:00" 60 now0)).start =
      (theOk (parseQuickText "kaffee 10:00" 60 now0)).minutes ∧
    (theOk (parseQuickText "kaffee 10:00" 60 now0)).start <
      (theOk (parseQuickText "kaffee 10:00" 60 now0)).end_ :=
  c6_theorem "kaffee 10:00" 60 now0
    (theOk (parseQuickText "kaffee 10:00" 60 now0)) (by decide)

/-- C7, counterexample: on `"arzt 1234min"` the duration pass matches the
substring `"234min"` (value 234, no leading `\b` in the extraction pattern of
line 448), but the title strip of line 511 is `\b`-anchored and cannot remove
it, so the returned title `"arzt 1234min"` still contains the matched
duration substring. -/
theorem c7_counterexample :
    (firstMinTok (trimWs ("arzt 1234min").data)).map Prod.fst =
      some ("234min").data ∧
    resMinutes (parseQuickText "arzt 1234min" 60 now0) = some 234 ∧
    resTitle (parseQuickText "arzt 1234min" 60 now0) = some "arzt 1234min" ∧
    segOccurs ("234min").data ("arzt 1234min").data = true := by
  decide

/-- C7, amended: title stripping removes the token patterns only where they
start at a word boundary, so a matched duration token embedded in a longer
digit run can survive into the title; an input consisting solely of
boundary-delimited tokens, such as `"90min 13:00 morgen"`, still reduces to
the placeholder title `"Termin"`. -/
theorem c7_theorem :
    resTitle (parseQuickText "90min 13:00 morgen" 60 now0) = some "Termin" := by
  decide

/-- C8, evaluation at the failing input: in `"zahnarzt 90 min"` the digits
`90` are part of the matched duration token `"90 min"` (the `\s*` of line 448
spans the space), yet the bare-hour pattern of line 493 also matches ` 90 `
— it only requires whitespace around the digits — so the hour becomes
clamp(90) = 23 instead of the default 9 required by the claim and by the
source's own comment (lines 491-492). -/
theorem c8_theorem :
    firstMinTok (trimWs ("zahnarzt 90 min").data) = some (("90 min").data, 90) ∧
    firstHourOnly (trimWs ("zahnarzt 90 min").data) = some 90 ∧
    resStartHour (parseQuickText "zahnarzt 90 min" 60 now0) = some 23 ∧
    resMinutes (parseQuickText "zahnarzt 90 min" 60 now0) = some 90 := by
  decide

/-- C9: on `"x 99:99 999min"`, for every clock reading, the captured time
digits are clamped independently to 23:59 and the duration to 720, and the
parse succeeds. -/
theorem c9_theorem (n : DateTime) :
    resStartHour (parseQuickText "x 99:99 999min" 60 n) = some 23 ∧
    resStartMinute (parseQuickText "x 99:99 999min" 60 n) = some 59 ∧
    resMinutes (parseQuickText "x 99:99 999min" 60 n) = some 720 := by
  rw [parse_start "x 99:99 999min" 60 n (by decide)]
  have hD : resolveDay (trimWs ("x 99:99 999min").data)
      ((trimWs ("x 99:99 999min").data).map lowerChar)
      { n with second := 0 } n.year = { n with second := 0 } := rfl
  have hT : resolveTime (trimWs ("x 99:99 999min").data) = (23, 59) := rfl
  have hM : resolveMinutes (trimWs ("x 99:99 999min").data) 60 = 720 := rfl
  rw [hD, hT, hM]
  refine ⟨?_, ?_, rfl⟩ <;>
    · simp only [resStartHour, resStartMinute, minutesHour, minutesMin,
        Option.some.injEq]
      omega

/-- C9, witness: the statement at the fixed reading `now0`. -/
theorem c9_witness :
    resStartHour (parseQuickText "x 99:99 999min" 60 now0) = some 23 ∧
    resStartMinute (parseQuickText "x 99:99 999min" 60 now0) = some 59 ∧
    resMinutes (parseQuickText "x 99:99 999min" 60 now0) = some 720 :=
  c9_theorem now0

/-- C10: for every clock reading, the impossible explicit dates 31.02.2026
and 31.04.2026 still parse successfully, rolled over by calendar
normalization to 2026-03-03 (Feb 2026 has 28 days) and 2026-05-01 (day 31 of
the 30-day April becomes May 1). -/
theorem c10_theorem (n : DateTime) :
    resStartYmd (parseQuickText "termin 31.02.2026" 60 n) = some ⟨2026, 3, 3⟩ ∧
    resStartYmd (parseQuickText "termin 31.04.2026" 60 n) = some ⟨2026, 5, 1⟩ := by
  constructor
  · rw [parse_start "termin 31.02.2026" 60 n (by decide)]
    have hD : (resolveDay (trimWs ("termin 31.02.2026").data)
        ((trimWs ("termin 31.02.2026").data).map lowerChar)
        { n with second := 0 } n.year).year = 2026 ∧
        (resolveDay (trimWs ("termin 31.02.2026").data)
        ((trimWs ("termin 31.02.2026").data).map lowerChar)
        { n with second := 0 } n.year).month = 3 ∧
        (resolveDay (trimWs ("termin 31.02.2026").data)
        ((trimWs ("termin 31.02.2026").data).map lowerChar)
        { n with second := 0 } n.year).day = 3 := ⟨rfl, rfl, rfl⟩
    have hT : resolveTime (trimWs ("termin 31.02.2026").data) = (23, 2) := rfl
    rw [hD.1, hD.2.1, hD.2.2, hT]
    decide
  · rw [parse_start "termin 31.04.2026" 60 n (by decide)]
    have hD : (resolveDay (trimWs ("termin 31.04.2026").data)
        ((trimWs ("termin 31.04.2026").data).map lowerChar)
        { n with second := 0 } n.year).year = 2026 ∧
        (resolveDay (trimWs ("termin 31.04.2026").data)
        ((trimWs ("termin 31.04.2026").data).map lowerChar)
        { n with second := 0 } n.year).month = 5 ∧
        (resolveDay (trimWs ("termin 31.04.2026").data)
        ((trimWs ("termin 31.04.2026").data).map lowerChar)
        { n with second := 0 } n.year).day = 1 := ⟨rfl, rfl, rfl⟩
    have hT : resolveTime (trimWs ("termin 31.04.2026").data) = (23, 4) := rfl
    rw [hD.1, hD.2.1, hD.2.2, hT]
    decide

/-- C10, witness: the statement at the fixed reading `now0`. -/
theorem c10_witness :
    resStartYmd (parseQuickText "termin 31.02.2026" 60 now0) = some ⟨2026, 3, 3⟩ ∧
    resStartYmd (parseQuickText "termin 31.04.2026" 60 now0) = some ⟨2026, 5, 1⟩ :=
  c10_theorem now0

end CalendarApi
